import Mathlib

/-!
Verification of the PDF range-cache server (`examples/pdf-server/server.ts`).

The repository ships only the test suite for this server, so the data model
and operations below are modelled from the specification: the bounded,
time-evicted range cache (`createPdfCache` / `readPdfRange` / `clearCache` /
`getCacheSize`) and the allow-list URL validator (`validateUrl`).  Bytes are
natural numbers, byte buffers are lists, timestamps are naturals, and the
two eviction timers of an entry are records in a scheduled-timer list owned
by the cache state.
-/

namespace PdfServer

/-- Modelled from the spec: `CACHE_INACTIVITY_TIMEOUT_MS = 10000`. -/
def CACHE_INACTIVITY_TIMEOUT_MS : Nat := 10000

/-- Modelled from the spec: `CACHE_MAX_LIFETIME_MS = 60000`. -/
def CACHE_MAX_LIFETIME_MS : Nat := 60000

/-- Modelled from the spec: `CACHE_MAX_PDF_SIZE_BYTES = 52428800` (50 MiB). -/
def CACHE_MAX_PDF_SIZE_BYTES : Nat := 52428800

/-- Modelled from the spec: one fully-downloaded document body stored in the
cache, with its creation and last-access timestamps. -/
structure CacheEntry where
  data : List Nat
  totalBytes : Nat
  createdAt : Nat
  lastAccessedAt : Nat
deriving DecidableEq

/-- The two eviction policies: inactivity timeout and absolute lifetime. -/
inductive TimerKind where
  | inactivity
  | lifetime
deriving DecidableEq

/-- Modelled from the spec: a scheduled eviction callback for one cache
entry, represented by the entry's URL, the policy it enforces and the
absolute time at which it fires. -/
structure Timer where
  url : String
  kind : TimerKind
  deadline : Nat
deriving DecidableEq

/-- Modelled from the spec: the mutable state of one cache instance — the
entry map (an association list keyed by URL) plus the live timers. -/
structure CacheState where
  entries : List (String × CacheEntry)
  timers : List Timer
deriving DecidableEq

/-- Association-list lookup keyed by URL. -/
def lookupE : List (String × CacheEntry) → String → Option CacheEntry
  | [], _ => none
  | (k, v) :: rest, u => if u = k then some v else lookupE rest u

/-- Remove every binding for a URL. -/
def eraseE : List (String × CacheEntry) → String → List (String × CacheEntry)
  | [], _ => []
  | (k, v) :: rest, u => if k = u then eraseE rest u else (k, v) :: eraseE rest u

/-- Replace the binding for a URL. -/
def insertE (l : List (String × CacheEntry)) (u : String) (e : CacheEntry) :
    List (String × CacheEntry) :=
  (u, e) :: eraseE l u

/-- Cancel every timer belonging to a URL. -/
def removeTimers : List Timer → String → List Timer
  | [], _ => []
  | t :: rest, u => if t.url = u then removeTimers rest u else t :: removeTimers rest u

/-- Reschedule one timer if it is the inactivity timer of the given URL. -/
def reschedOne (u : String) (now : Nat) (t : Timer) : Timer :=
  if t.url = u ∧ t.kind = TimerKind.inactivity then
    ⟨t.url, t.kind, now + CACHE_INACTIVITY_TIMEOUT_MS⟩
  else t

/-- Modelled from the spec: on a cache hit the inactivity timer is
rescheduled from now; the lifetime timer is not touched. -/
def rescheduleInactivity (ts : List Timer) (u : String) (now : Nat) : List Timer :=
  ts.map (reschedOne u now)

/-- The timers enforcing the absolute-lifetime policy. -/
def lifetimeTimers : List Timer → List Timer
  | [] => []
  | t :: rest =>
    if t.kind = TimerKind.lifetime then t :: lifetimeTimers rest else lifetimeTimers rest

/-- An upstream HTTP response: status code, advertised `Content-Length`,
total size parsed from `Content-Range` (for 206), and the body bytes. -/
structure HttpResponse where
  status : Nat
  contentLength : Option Nat
  contentRangeTotal : Option Nat
  body : List Nat
deriving DecidableEq

/-- The value returned by a successful range read. -/
structure RangeResult where
  data : List Nat
  totalBytes : Nat
deriving DecidableEq

/-- Modelled from the spec: `FetchError` for network/unexpected-status
failures, `PdfTooLargeError` for the size limit. -/
inductive PdfError where
  | fetchError
  | pdfTooLarge
deriving DecidableEq

/-- The byte slice `[start, start+len)` of a buffer, truncated at the end. -/
def sliceBytes (data : List Nat) (start len : Nat) : List Nat :=
  (data.drop start).take len

/-- The slice `data[a : b]` written the way the spec writes it. -/
def specSlice (data : List Nat) (a b : Nat) : List Nat :=
  (data.take b).drop a

/-- Does the advertised `Content-Length` exceed the cache size limit? -/
def exceedsLimit (r : HttpResponse) : Bool :=
  match r.contentLength with
  | some cl => decide (CACHE_MAX_PDF_SIZE_BYTES < cl)
  | none => false

/-- Modelled from the spec: update `lastAccessedAt` on a cache hit. -/
def touchEntry (e : CacheEntry) (now : Nat) : CacheEntry :=
  ⟨e.data, e.totalBytes, e.createdAt, now⟩

/-- The cache state after a hit on `url`: the entry is touched and its
inactivity timer rescheduled from `now`. -/
def hitState (s : CacheState) (now : Nat) (url : String) (e : CacheEntry) : CacheState :=
  ⟨insertE s.entries url (touchEntry e now), rescheduleInactivity s.timers url now⟩

/-- The cache state after storing a freshly fetched full `body` for `url`:
the entry is inserted and both eviction timers are armed. -/
def storeState (s : CacheState) (now : Nat) (url : String) (body : List Nat) : CacheState :=
  ⟨insertE s.entries url ⟨body, body.length, now, now⟩,
   ⟨url, TimerKind.inactivity, now + CACHE_INACTIVITY_TIMEOUT_MS⟩ ::
   ⟨url, TimerKind.lifetime, now + CACHE_MAX_LIFETIME_MS⟩ ::
   removeTimers s.timers url⟩

/-- Modelled from the spec: size enforcement and insertion when a full body
is about to be cached (the 200 case, also reached through the 501→GET
fallback).  Reject if the advertised `Content-Length` exceeds the limit,
reject if the actual body length exceeds it; otherwise store the entry, arm
both timers and return the requested slice. -/
def cacheFullBody (s : CacheState) (now : Nat) (url : String) (start len : Nat)
    (r : HttpResponse) : Except PdfError RangeResult × CacheState :=
  if exceedsLimit r then
    (Except.error PdfError.pdfTooLarge, s)
  else if CACHE_MAX_PDF_SIZE_BYTES < r.body.length then
    (Except.error PdfError.pdfTooLarge, s)
  else
    (Except.ok ⟨sliceBytes r.body start len, r.body.length⟩, storeState s now url r.body)

/-- Modelled from the spec: `readPdfRange(url, start, length)`.  The network
is the oracle `net url rng` where `rng = some (start, len)` is a range
request and `rng = none` a plain GET.  Returns the result, the next cache
state, and the number of network fetches this call performed. -/
def readPdfRange (net : String → Option (Nat × Nat) → HttpResponse)
    (s : CacheState) (now : Nat) (url : String) (start len : Nat) :
    Except PdfError RangeResult × CacheState × Nat :=
  match lookupE s.entries url with
  | some e =>
    (Except.ok ⟨sliceBytes e.data start len, e.totalBytes⟩, hitState s now url e, 0)
  | none =>
    let r := net url (some (start, len))
    if r.status = 206 then
      (Except.ok ⟨r.body, r.contentRangeTotal.getD r.body.length⟩, s, 1)
    else if r.status = 200 then
      let p := cacheFullBody s now url start len r
      (p.1, p.2, 1)
    else if r.status = 501 then
      let r2 := net url none
      if r2.status = 200 then
        let p := cacheFullBody s now url start len r2
        (p.1, p.2, 2)
      else
        (Except.error PdfError.fetchError, s, 2)
    else
      (Except.error PdfError.fetchError, s, 1)

/-- Modelled from the spec: a fresh, isolated cache instance. -/
def createPdfCache : CacheState := ⟨[], []⟩

/-- Modelled from the spec: `clearCache()` empties the map and cancels every
live timer. -/
def clearCache (_s : CacheState) : CacheState := ⟨[], []⟩

/-- Modelled from the spec: `getCacheSize()` — the number of live entries. -/
def getCacheSize (s : CacheState) : Nat := s.entries.length

/-- Modelled from the spec: firing either eviction timer of a URL removes
the entry and cancels the other timer. -/
def evictEntry (s : CacheState) (url : String) : CacheState :=
  ⟨eraseE s.entries url, removeTimers s.timers url⟩

/-- A sequence of reads of the same URL; each request is `(now, start, len)`.
Returns the final state and the total number of network fetches. -/
def readSeq (net : String → Option (Nat × Nat) → HttpResponse) (url : String) :
    List (Nat × Nat × Nat) → CacheState → CacheState × Nat
  | [], s => (s, 0)
  | (now, start, len) :: rest, s =>
    let r := readPdfRange net s now url start len
    let q := readSeq net url rest r.2.1
    (q.1, r.2.2 + q.2)

/-- A response small enough to be cached. -/
def okSize (r : HttpResponse) : Prop :=
  (∀ cl, r.contentLength = some cl → cl ≤ CACHE_MAX_PDF_SIZE_BYTES) ∧
  r.body.length ≤ CACHE_MAX_PDF_SIZE_BYTES

/-- A response the size limit must reject. -/
def oversizeResp (r : HttpResponse) : Prop :=
  (∃ cl, r.contentLength = some cl ∧ CACHE_MAX_PDF_SIZE_BYTES < cl) ∨
  CACHE_MAX_PDF_SIZE_BYTES < r.body.length

/-- The cache states reachable from a fresh instance by reads, clears and
timer firings. -/
inductive Reachable : CacheState → Prop where
  | init : Reachable createPdfCache
  | read (net : String → Option (Nat × Nat) → HttpResponse) (now : Nat) (url : String)
      (start len : Nat) {s : CacheState} (h : Reachable s) :
      Reachable (readPdfRange net s now url start len).2.1
  | clear {s : CacheState} (h : Reachable s) : Reachable (clearCache s)
  | fire {s : CacheState} (t : Timer) (h : Reachable s) (ht : t ∈ s.timers) :
      Reachable (evictEntry s t.url)

/-- The structural invariant of a cache state: no dangling timer, every
entry owns a live timer of each kind and records its true body length, and
every lifetime timer fires exactly `CACHE_MAX_LIFETIME_MS` after its
entry's creation. -/
def WF (s : CacheState) : Prop :=
  (∀ t ∈ s.timers, (lookupE s.entries t.url).isSome) ∧
  (∀ url e, lookupE s.entries url = some e →
    (∃ t ∈ s.timers, t.url = url ∧ t.kind = TimerKind.inactivity) ∧
    (∃ t ∈ s.timers, t.url = url ∧ t.kind = TimerKind.lifetime) ∧
    e.totalBytes = e.data.length) ∧
  (∀ t ∈ s.timers, t.kind = TimerKind.lifetime →
    ∀ e, lookupE s.entries t.url = some e →
      t.deadline = e.createdAt + CACHE_MAX_LIFETIME_MS)

/-- Does `p` start with the string `q`? -/
def strStarts (q s : String) : Bool := List.isPrefixOf q.data s.data

/-- `pat` occurs as a contiguous substring of `s`. -/
def strOccurs (pat s : String) : Prop :=
  ∃ pre suf, s.data = pre ++ (pat.data ++ suf)

/-- Modelled from the spec: the two process-wide allow-list sets,
`allowedLocalFiles` (exact absolute file paths) and `allowedLocalDirs`
(absolute directory prefixes). -/
structure AllowListState where
  allowedLocalFiles : List String
  allowedLocalDirs : List String
deriving DecidableEq

/-- Modelled from the spec: the structured result of `validateUrl` — never
an exception. -/
structure ValidationResult where
  valid : Bool
  error : Option String
deriving DecidableEq

/-- Modelled from the spec: the helper converting a local path to its
file-URL form. -/
def pathToFileUrl (p : String) : String := "file://" ++ p

/-- The local path of a file URL (drop the 7-character `file://` scheme). -/
def fileUrlToPath (url : String) : String := ⟨url.data.drop 7⟩

/-- Modelled from the spec: boundary-safe directory containment — true only
when the candidate equals the allowed directory or starts with it followed
by a path separator. -/
def isPathInDirectory (p d : String) : Bool :=
  p == d || strStarts (d ++ "/") p

/-- Is the path allowed, verbatim in `allowedLocalFiles` or under some
directory of `allowedLocalDirs`? -/
def isPathAllowed (cfg : AllowListState) (p : String) : Bool :=
  cfg.allowedLocalFiles.contains p ||
  cfg.allowedLocalDirs.any (fun d => isPathInDirectory p d)

/-- Modelled from the spec: `validateUrl(url)`.  Non-file URLs are valid
unconditionally; a file URL is valid only if its path is allowed and exists
on the filesystem, modelled by the list `fs` of existing paths.  Failures
are returned as structured results with distinguishable messages. -/
def validateUrl (cfg : AllowListState) (fs : List String) (url : String) : ValidationResult :=
  if strStarts "file://" url then
    let p := fileUrlToPath url
    if isPathAllowed cfg p then
      if fs.contains p then ⟨true, none⟩
      else ⟨false, some ("File not found: " ++ p)⟩
    else ⟨false, some ("Local file not in allowed list: " ++ p)⟩
  else ⟨true, none⟩

/-- A pair of cache instances living in the same process; reading on the
first must not touch the second. -/
def readOnFirst (net : String → Option (Nat × Nat) → HttpResponse)
    (now : Nat) (url : String) (start len : Nat)
    (p : CacheState × CacheState) : CacheState × CacheState :=
  ((readPdfRange net p.1 now url start len).2.1, p.2)

/-- Concrete test fixture: a small full body. -/
def sampleBody : List Nat := [1, 2, 3, 4, 5, 6, 7, 8, 9, 10]

/-- Concrete test fixture: an upstream that ignores ranges and always
answers 200 with the sample body. -/
def netFull : String → Option (Nat × Nat) → HttpResponse :=
  fun _ _ => ⟨200, none, none, sampleBody⟩

/-- Concrete test fixture: an upstream that honors ranges and always
answers 206. -/
def netPart : String → Option (Nat × Nat) → HttpResponse :=
  fun _ _ => ⟨206, none, some 100, [1, 2]⟩

/-- Concrete test fixture: an upstream that answers 501 to range requests
and 200 with the sample body to plain GETs. -/
def netFallback : String → Option (Nat × Nat) → HttpResponse :=
  fun _ rng =>
    match rng with
    | some _ => ⟨501, none, none, []⟩
    | none => ⟨200, none, none, sampleBody⟩

/-- Concrete test fixture: an upstream advertising a `Content-Length` just
over the cache limit. -/
def netHuge : String → Option (Nat × Nat) → HttpResponse :=
  fun _ _ => ⟨200, some (CACHE_MAX_PDF_SIZE_BYTES + 1), none, [1]⟩

theorem lookupE_eraseE (l : List (String × CacheEntry)) (u v : String) :
    lookupE (eraseE l u) v = if v = u then none else lookupE l v := by
  induction l with
  | nil => simp [eraseE, lookupE]
  | cons p rest ih =>
    obtain ⟨k, e⟩ := p
    simp only [eraseE]
    by_cases hk : k = u
    · rw [if_pos hk, ih]
      subst hk
      by_cases hv : v = k
      · simp [lookupE, hv]
      · simp [lookupE, hv]
    · rw [if_neg hk]
      simp only [lookupE]
      by_cases hv : v = k
      · subst hv
        simp [hk]
      · simp [hv, ih]

theorem lookupE_insertE (l : List (String × CacheEntry)) (u : String) (e : CacheEntry)
    (v : String) :
    lookupE (insertE l u e) v = if v = u then some e else lookupE l v := by
  simp only [insertE, lookupE]
  by_cases hv : v = u
  · simp [hv]
  · rw [lookupE_eraseE]; simp [hv]

theorem mem_removeTimers {t : Timer} (ts : List Timer) (u : String) :
    t ∈ removeTimers ts u ↔ t ∈ ts ∧ t.url ≠ u := by
  induction ts with
  | nil => simp [removeTimers]
  | cons t0 rest ih =>
    simp only [removeTimers]
    by_cases h : t0.url = u
    · rw [if_pos h, ih]
      simp only [List.mem_cons]
      constructor
      · rintro ⟨h1, h2⟩
        exact ⟨Or.inr h1, h2⟩
      · rintro ⟨h1 | h1, h2⟩
        · exact absurd (h1 ▸ h) h2
        · exact ⟨h1, h2⟩
    · rw [if_neg h]
      simp only [List.mem_cons, ih]
      constructor
      · rintro (h1 | ⟨h1, h2⟩)
        · exact ⟨Or.inl h1, h1 ▸ h⟩
        · exact ⟨Or.inr h1, h2⟩
      · rintro ⟨h1 | h1, h2⟩
        · exact Or.inl h1
        · exact Or.inr ⟨h1, h2⟩

theorem reschedOne_url (u : String) (now : Nat) (t : Timer) :
    (reschedOne u now t).url = t.url := by
  unfold reschedOne; split <;> rfl

theorem reschedOne_kind (u : String) (now : Nat) (t : Timer) :
    (reschedOne u now t).kind = t.kind := by
  unfold reschedOne; split <;> rfl

theorem reschedOne_of_not (u : String) (now : Nat) (t : Timer)
    (h : ¬(t.url = u ∧ t.kind = TimerKind.inactivity)) : reschedOne u now t = t := by
  unfold reschedOne; rw [if_neg h]

theorem reschedOne_of_hit (u : String) (now : Nat) (t : Timer)
    (h1 : t.url = u) (h2 : t.kind = TimerKind.inactivity) :
    reschedOne u now t = ⟨t.url, t.kind, now + CACHE_INACTIVITY_TIMEOUT_MS⟩ := by
  unfold reschedOne; rw [if_pos ⟨h1, h2⟩]

theorem lifetimeTimers_resched (ts : List Timer) (u : String) (now : Nat) :
    lifetimeTimers (rescheduleInactivity ts u now) = lifetimeTimers ts := by
  induction ts with
  | nil => rfl
  | cons t rest ih =>
    simp only [rescheduleInactivity, List.map_cons] at ih ⊢
    by_cases hk : t.kind = TimerKind.lifetime
    · have hne : ¬(t.url = u ∧ t.kind = TimerKind.inactivity) := by
        rintro ⟨_, h2⟩
        rw [hk] at h2
        exact TimerKind.noConfusion h2
      rw [reschedOne_of_not u now t hne]
      simp only [lifetimeTimers, if_pos hk, ih]
    · have h1 : (reschedOne u now t).kind ≠ TimerKind.lifetime := by
        rw [reschedOne_kind]; exact hk
      simp only [lifetimeTimers, if_neg hk, if_neg h1, ih]

theorem read_hit (net : String → Option (Nat × Nat) → HttpResponse)
    (s : CacheState) (now : Nat) (url : String) (start len : Nat) (e : CacheEntry)
    (hl : lookupE s.entries url = some e) :
    readPdfRange net s now url start len =
      (Except.ok ⟨sliceBytes e.data start len, e.totalBytes⟩, hitState s now url e, 0) := by
  unfold readPdfRange; rw [hl]

theorem read_206 (net : String → Option (Nat × Nat) → HttpResponse)
    (s : CacheState) (now : Nat) (url : String) (start len : Nat)
    (hl : lookupE s.entries url = none)
    (hs : (net url (some (start, len))).status = 206) :
    readPdfRange net s now url start len =
      (Except.ok ⟨(net url (some (start, len))).body,
         (net url (some (start, len))).contentRangeTotal.getD
           (net url (some (start, len))).body.length⟩, s, 1) := by
  unfold readPdfRange; rw [hl]; simp [hs]

theorem read_200 (net : String → Option (Nat × Nat) → HttpResponse)
    (s : CacheState) (now : Nat) (url : String) (start len : Nat)
    (hl : lookupE s.entries url = none)
    (hs : (net url (some (start, len))).status = 200) :
    readPdfRange net s now url start len =
      ((cacheFullBody s now url start len (net url (some (start, len)))).1,
       (cacheFullBody s now url start len (net url (some (start, len)))).2, 1) := by
  unfold readPdfRange; rw [hl]; simp [hs]

theorem read_501 (net : String → Option (Nat × Nat) → HttpResponse)
    (s : CacheState) (now : Nat) (url : String) (start len : Nat)
    (hl : lookupE s.entries url = none)
    (hs : (net url (some (start, len))).status = 501)
    (hs2 : (net url none).status = 200) :
    readPdfRange net s now url start len =
      ((cacheFullBody s now url start len (net url none)).1,
       (cacheFullBody s now url start len (net url none)).2, 2) := by
  unfold readPdfRange; rw [hl]; simp [hs, hs2]

theorem read_501_fail (net : String → Option (Nat × Nat) → HttpResponse)
    (s : CacheState) (now : Nat) (url : String) (start len : Nat)
    (hl : lookupE s.entries url = none)
    (hs : (net url (some (start, len))).status = 501)
    (hs2 : (net url none).status ≠ 200) :
    readPdfRange net s now url start len = (Except.error PdfError.fetchError, s, 2) := by
  unfold readPdfRange; rw [hl]; simp [hs, hs2]

theorem read_other (net : String → Option (Nat × Nat) → HttpResponse)
    (s : CacheState) (now : Nat) (url : String) (start len : Nat)
    (hl : lookupE s.entries url = none)
    (h206 : (net url (some (start, len))).status ≠ 206)
    (h200 : (net url (some (start, len))).status ≠ 200)
    (h501 : (net url (some (start, len))).status ≠ 501) :
    readPdfRange net s now url start len = (Except.error PdfError.fetchError, s, 1) := by
  unfold readPdfRange; rw [hl]; simp [h206, h200, h501]

theorem cacheFullBody_ok (s : CacheState) (now : Nat) (url : String) (start len : Nat)
    (r : HttpResponse) (h : okSize r) :
    cacheFullBody s now url start len r =
      (Except.ok ⟨sliceBytes r.body start len, r.body.length⟩, storeState s now url r.body) := by
  have h1 : exceedsLimit r = false := by
    unfold exceedsLimit
    cases hc : r.contentLength with
    | none => rfl
    | some cl =>
      simp only [decide_eq_false_iff_not, Nat.not_lt]
      exact h.1 cl hc
  unfold cacheFullBody
  simp [h1, Nat.not_lt.mpr h.2]

theorem cacheFullBody_reject (s : CacheState) (now : Nat) (url : String) (start len : Nat)
    (r : HttpResponse) (h : oversizeResp r) :
    cacheFullBody s now url start len r = (Except.error PdfError.pdfTooLarge, s) := by
  unfold cacheFullBody
  rcases h with ⟨cl, hcl, hgt⟩ | hbody
  · have he : exceedsLimit r = true := by
      unfold exceedsLimit; rw [hcl]; simp [hgt]
    simp [he]
  · by_cases he : exceedsLimit r
    · simp [he]
    · simp [he, hbody]

theorem WF_empty : WF ⟨[], []⟩ := by
  refine ⟨?_, ?_, ?_⟩
  · intro t ht; cases ht
  · intro url e h; simp [lookupE] at h
  · intro t ht; cases ht

theorem WF_hit (s : CacheState) (now : Nat) (url : String) (e : CacheEntry)
    (hWF : WF s) (hl : lookupE s.entries url = some e) : WF (hitState s now url e) := by
  obtain ⟨W1, W2, W3⟩ := hWF
  refine ⟨?_, ?_, ?_⟩
  · intro t ht
    simp only [hitState, rescheduleInactivity] at ht ⊢
    rcases List.mem_map.mp ht with ⟨t0, ht0, rfl⟩
    rw [reschedOne_url, lookupE_insertE]
    split
    · simp
    · exact W1 t0 ht0
  · intro u2 e2 h2
    simp only [hitState, rescheduleInactivity] at h2 ⊢
    rw [lookupE_insertE] at h2
    by_cases hu : u2 = url
    · subst hu
      rw [if_pos rfl] at h2
      injection h2 with h2
      obtain ⟨⟨ti, hti, htiu, htik⟩, ⟨tl, htl, htlu, htlk⟩, hlen⟩ := W2 u2 e hl
      refine ⟨⟨reschedOne u2 now ti, List.mem_map_of_mem _ hti, ?_, ?_⟩,
              ⟨reschedOne u2 now tl, List.mem_map_of_mem _ htl, ?_, ?_⟩, ?_⟩
      · rw [reschedOne_url]; exact htiu
      · rw [reschedOne_kind]; exact htik
      · rw [reschedOne_url]; exact htlu
      · rw [reschedOne_kind]; exact htlk
      · rw [← h2]; exact hlen
    · rw [if_neg hu] at h2
      obtain ⟨⟨ti, hti, htiu, htik⟩, ⟨tl, htl, htlu, htlk⟩, hlen⟩ := W2 u2 e2 h2
      refine ⟨⟨reschedOne url now ti, List.mem_map_of_mem _ hti, ?_, ?_⟩,
              ⟨reschedOne url now tl, List.mem_map_of_mem _ htl, ?_, ?_⟩, hlen⟩
      · rw [reschedOne_url]; exact htiu
      · rw [reschedOne_kind]; exact htik
      · rw [reschedOne_url]; exact htlu
      · rw [reschedOne_kind]; exact htlk
  · intro t ht hk e2 h2
    simp only [hitState, rescheduleInactivity] at ht h2
    rcases List.mem_map.mp ht with ⟨t0, ht0, rfl⟩
    rw [reschedOne_kind] at hk
    have hne : ¬(t0.url = url ∧ t0.kind = TimerKind.inactivity) := by
      rintro ⟨_, hki⟩
      rw [hki] at hk
      exact TimerKind.noConfusion hk
    rw [reschedOne_of_not _ _ _ hne] at h2 ⊢
    rw [lookupE_insertE] at h2
    by_cases hu : t0.url = url
    · rw [if_pos hu] at h2
      injection h2 with h2
      have hd := W3 t0 ht0 hk e (by rw [hu]; exact hl)
      rw [← h2]
      exact hd
    · rw [if_neg hu] at h2
      exact W3 t0 ht0 hk e2 h2

theorem WF_store (s : CacheState) (now : Nat) (url : String) (body : List Nat)
    (hWF : WF s) : WF (storeState s now url body) := by
  obtain ⟨W1, W2, W3⟩ := hWF
  refine ⟨?_, ?_, ?_⟩
  · intro t ht
    simp only [storeState, List.mem_cons] at ht ⊢
    rw [lookupE_insertE]
    rcases ht with rfl | rfl | ht
    · simp
    · simp
    · rw [mem_removeTimers] at ht
      rw [if_neg ht.2]
      exact W1 t ht.1
  · intro u2 e2 h2
    simp only [storeState] at h2 ⊢
    rw [lookupE_insertE] at h2
    by_cases hu : u2 = url
    · subst hu
      rw [if_pos rfl] at h2
      injection h2 with h2
      refine ⟨⟨⟨u2, TimerKind.inactivity, now + CACHE_INACTIVITY_TIMEOUT_MS⟩, ?_, rfl, rfl⟩,
              ⟨⟨u2, TimerKind.lifetime, now + CACHE_MAX_LIFETIME_MS⟩, ?_, rfl, rfl⟩, ?_⟩
      · exact List.mem_cons_self _ _
      · exact List.mem_cons_of_mem _ (List.mem_cons_self _ _)
      · rw [← h2]
    · rw [if_neg hu] at h2
      obtain ⟨⟨ti, hti, htiu, htik⟩, ⟨tl, htl, htlu, htlk⟩, hlen⟩ := W2 u2 e2 h2
      refine ⟨⟨ti, ?_, htiu, htik⟩, ⟨tl, ?_, htlu, htlk⟩, hlen⟩
      · exact List.mem_cons_of_mem _ (List.mem_cons_of_mem _
          ((mem_removeTimers _ _).mpr ⟨hti, by rw [htiu]; exact hu⟩))
      · exact List.mem_cons_of_mem _ (List.mem_cons_of_mem _
          ((mem_removeTimers _ _).mpr ⟨htl, by rw [htlu]; exact hu⟩))
  · intro t ht hk e2 h2
    simp only [storeState, List.mem_cons] at ht h2
    rcases ht with rfl | rfl | ht
    · exact TimerKind.noConfusion hk
    · rw [lookupE_insertE, if_pos rfl] at h2
      injection h2 with h2
      rw [← h2]
    · rw [mem_removeTimers] at ht
      rw [lookupE_insertE, if_neg ht.2] at h2
      exact W3 t ht.1 hk e2 h2

theorem WF_evict (s : CacheState) (u : String) (hWF : WF s) : WF (evictEntry s u) := by
  obtain ⟨W1, W2, W3⟩ := hWF
  refine ⟨?_, ?_, ?_⟩
  · intro t ht
    simp only [evictEntry] at ht ⊢
    rw [mem_removeTimers] at ht
    rw [lookupE_eraseE, if_neg ht.2]
    exact W1 t ht.1
  · intro u2 e2 h2
    simp only [evictEntry] at h2 ⊢
    rw [lookupE_eraseE] at h2
    by_cases hu : u2 = u
    · rw [if_pos hu] at h2
      exact Option.noConfusion h2
    · rw [if_neg hu] at h2
      obtain ⟨⟨ti, hti, htiu, htik⟩, ⟨tl, htl, htlu, htlk⟩, hlen⟩ := W2 u2 e2 h2
      refine ⟨⟨ti, (mem_removeTimers _ _).mpr ⟨hti, by rw [htiu]; exact hu⟩, htiu, htik⟩,
              ⟨tl, (mem_removeTimers _ _).mpr ⟨htl, by rw [htlu]; exact hu⟩, htlu, htlk⟩, hlen⟩
  · intro t ht hk e2 h2
    simp only [evictEntry] at ht h2
    rw [mem_removeTimers] at ht
    rw [lookupE_eraseE, if_neg ht.2] at h2
    exact W3 t ht.1 hk e2 h2

theorem WF_cacheFullBody (s : CacheState) (now : Nat) (url : String) (start len : Nat)
    (r : HttpResponse) (hWF : WF s) : WF (cacheFullBody s now url start len r).2 := by
  unfold cacheFullBody
  split
  · exact hWF
  · split
    · exact hWF
    · exact WF_store s now url r.body hWF

theorem WF_read (net : String → Option (Nat × Nat) → HttpResponse)
    (s : CacheState) (now : Nat) (url : String) (start len : Nat)
    (hWF : WF s) : WF (readPdfRange net s now url start len).2.1 := by
  cases hl : lookupE s.entries url with
  | some e =>
    rw [read_hit net s now url start len e hl]
    exact WF_hit s now url e hWF hl
  | none =>
    by_cases h206 : (net url (some (start, len))).status = 206
    · rw [read_206 net s now url start len hl h206]
      exact hWF
    · by_cases h200 : (net url (some (start, len))).status = 200
      · rw [read_200 net s now url start len hl h200]
        exact WF_cacheFullBody s now url start len _ hWF
      · by_cases h501 : (net url (some (start, len))).status = 501
        · by_cases hg : (net url none).status = 200
          · rw [read_501 net s now url start len hl h501 hg]
            exact WF_cacheFullBody s now url start len _ hWF
          · rw [read_501_fail net s now url start len hl h501 hg]
            exact hWF
        · rw [read_other net s now url start len hl h206 h200 h501]
          exact hWF

theorem reachable_WF {s : CacheState} (h : Reachable s) : WF s := by
  induction h with
  | init => exact WF_empty
  | read net now url start len h ih => exact WF_read net _ now url start len ih
  | clear h ih => exact WF_empty
  | fire t h ht ih => exact WF_evict _ _ ih

theorem sliceBytes_eq_specSlice (l : List Nat) (a n : Nat) :
    sliceBytes l a n = specSlice l a (min (a + n) l.length) := by
  unfold sliceBytes specSlice
  rw [List.drop_take, List.take_eq_take]
  simp only [List.length_drop]
  omega

theorem sliceBytes_empty (l : List Nat) (a n : Nat) (h : l.length ≤ a) :
    sliceBytes l a n = [] := by
  unfold sliceBytes
  rw [List.drop_eq_nil_iff.mpr h, List.take_nil]

theorem hitState_lookup (s : CacheState) (now : Nat) (url : String) (e : CacheEntry) :
    lookupE (hitState s now url e).entries url = some (touchEntry e now) := by
  simp only [hitState]
  rw [lookupE_insertE, if_pos rfl]

theorem storeState_lookup (s : CacheState) (now : Nat) (url : String) (body : List Nat) :
    lookupE (storeState s now url body).entries url = some ⟨body, body.length, now, now⟩ := by
  simp only [storeState]
  rw [lookupE_insertE, if_pos rfl]

theorem read_fetch_cold (net : String → Option (Nat × Nat) → HttpResponse)
    (s : CacheState) (now : Nat) (url : String) (start len : Nat)
    (hl : lookupE s.entries url = none) :
    1 ≤ (readPdfRange net s now url start len).2.2 := by
  by_cases h206 : (net url (some (start, len))).status = 206
  · rw [read_206 net s now url start len hl h206]
  · by_cases h200 : (net url (some (start, len))).status = 200
    · rw [read_200 net s now url start len hl h200]
    · by_cases h501 : (net url (some (start, len))).status = 501
      · by_cases hg : (net url none).status = 200
        · rw [read_501 net s now url start len hl h501 hg]
          exact Nat.le_succ 1
        · rw [read_501_fail net s now url start len hl h501 hg]
          exact Nat.le_succ 1
      · rw [read_other net s now url start len hl h206 h200 h501]

theorem read_fetch_bound (net : String → Option (Nat × Nat) → HttpResponse)
    (s : CacheState) (now : Nat) (url : String) (start len : Nat) :
    (readPdfRange net s now url start len).2.2 ≤ 2 ∧
    ((readPdfRange net s now url start len).2.2 = 2 →
      lookupE s.entries url = none ∧ (net url (some (start, len))).status = 501) := by
  cases hl : lookupE s.entries url with
  | some e =>
    rw [read_hit net s now url start len e hl]
    refine ⟨Nat.zero_le 2, fun h => ?_⟩
    have h0 : (0 : Nat) = 2 := h
    omega
  | none =>
    by_cases h206 : (net url (some (start, len))).status = 206
    · rw [read_206 net s now url start len hl h206]
      refine ⟨Nat.le_succ 1, fun h => ?_⟩
      have h0 : (1 : Nat) = 2 := h
      omega
    · by_cases h200 : (net url (some (start, len))).status = 200
      · rw [read_200 net s now url start len hl h200]
        refine ⟨Nat.le_succ 1, fun h => ?_⟩
        have h0 : (1 : Nat) = 2 := h
        omega
      · by_cases h501 : (net url (some (start, len))).status = 501
        · by_cases hg : (net url none).status = 200
          · rw [read_501 net s now url start len hl h501 hg]
            exact ⟨Nat.le_refl 2, fun _ => ⟨rfl, h501⟩⟩
          · rw [read_501_fail net s now url start len hl h501 hg]
            exact ⟨Nat.le_refl 2, fun _ => ⟨rfl, h501⟩⟩
        · rw [read_other net s now url start len hl h206 h200 h501]
          refine ⟨Nat.le_succ 1, fun h => ?_⟩
          have h0 : (1 : Nat) = 2 := h
          omega

theorem readSeq_of_hit (net : String → Option (Nat × Nat) → HttpResponse)
    (url : String) (reqs : List (Nat × Nat × Nat)) :
    ∀ (s : CacheState) (e : CacheEntry), lookupE s.entries url = some e →
      (readSeq net url reqs s).2 = 0 := by
  induction reqs with
  | nil => intro s e _; rfl
  | cons req rest ih =>
    intro s e hl
    obtain ⟨now, start, len⟩ := req
    have hl2 := hitState_lookup s now url e
    simp only [readSeq, read_hit net s now url start len e hl]
    rw [ih (hitState s now url e) (touchEntry e now) hl2]

theorem readSeq_206 (net : String → Option (Nat × Nat) → HttpResponse) (url : String)
    (h206 : ∀ start len, (net url (some (start, len))).status = 206)
    (reqs : List (Nat × Nat × Nat)) :
    ∀ s : CacheState, lookupE s.entries url = none →
      (readSeq net url reqs s).1 = s ∧ (readSeq net url reqs s).2 = reqs.length := by
  induction reqs with
  | nil => intro s _; exact ⟨rfl, rfl⟩
  | cons req rest ih =>
    intro s hl
    obtain ⟨now, start, len⟩ := req
    simp only [readSeq, read_206 net s now url start len hl (h206 start len)]
    obtain ⟨ih1, ih2⟩ := ih s hl
    rw [ih1, ih2]
    exact ⟨rfl, by simp [List.length_cons]; omega⟩

theorem strOccurs_allowed (p : String) :
    strOccurs "not in allowed list" ("Local file not in allowed list: " ++ p) := by
  refine ⟨"Local file ".data, ": ".data ++ p.data, ?_⟩
  have h : ("Local file not in allowed list: " ++ p).data =
      "Local file not in allowed list: ".data ++ p.data := rfl
  rw [h]
  have h2 : "Local file ".data ++ ("not in allowed list".data ++ ": ".data) =
      "Local file not in allowed list: ".data := by decide
  rw [← h2]
  simp [List.append_assoc]

theorem strOccurs_notFound (p : String) :
    strOccurs "File not found" ("File not found: " ++ p) := by
  refine ⟨[], ": ".data ++ p.data, ?_⟩
  have h : ("File not found: " ++ p).data = "File not found: ".data ++ p.data := rfl
  rw [h]
  have h2 : "File not found".data ++ ": ".data = "File not found: ".data := by decide
  rw [← h2]
  simp [List.append_assoc]

theorem validateUrl_notAllowed (cfg : AllowListState) (fs : List String) (url : String)
    (hf : strStarts "file://" url = true)
    (ha : isPathAllowed cfg (fileUrlToPath url) = false) :
    validateUrl cfg fs url =
      ⟨false, some ("Local file not in allowed list: " ++ fileUrlToPath url)⟩ := by
  unfold validateUrl
  simp [hf, ha]

theorem validateUrl_notFound (cfg : AllowListState) (fs : List String) (url : String)
    (hf : strStarts "file://" url = true)
    (ha : isPathAllowed cfg (fileUrlToPath url) = true)
    (he : fs.contains (fileUrlToPath url) = false) :
    validateUrl cfg fs url = ⟨false, some ("File not found: " ++ fileUrlToPath url)⟩ := by
  have he2 : fileUrlToPath url ∉ fs := by simpa using he
  unfold validateUrl
  simp [hf, ha, he2]

theorem validateUrl_ok (cfg : AllowListState) (fs : List String) (url : String)
    (hf : strStarts "file://" url = true)
    (ha : isPathAllowed cfg (fileUrlToPath url) = true)
    (he : fs.contains (fileUrlToPath url) = true) :
    validateUrl cfg fs url = ⟨true, none⟩ := by
  have he2 : fileUrlToPath url ∈ fs := by simpa using he
  unfold validateUrl
  simp [hf, ha, he2]

theorem validateUrl_nonFile (cfg : AllowListState) (fs : List String) (url : String)
    (hf : strStarts "file://" url = false) :
    validateUrl cfg fs url = ⟨true, none⟩ := by
  unfold validateUrl
  simp [hf]

/-- Claim C1: for every URL with a cached entry in a reachable state and all
`start, n ≥ 0`, `readPdfRange` returns data equal to
`fullBody[start : min(start+n, totalBytes)]` and `totalBytes` equal to the
length of the cached full body, with no error; when `start ≥ totalBytes` the
returned data is empty. -/
theorem readPdfRange_cached_slice :
    ∀ (net : String → Option (Nat × Nat) → HttpResponse) (s : CacheState) (now : Nat)
      (url : String) (start n : Nat) (e : CacheEntry),
      Reachable s → lookupE s.entries url = some e →
      (readPdfRange net s now url start n).1 =
        Except.ok ⟨specSlice e.data start (min (start + n) e.data.length), e.data.length⟩ ∧
      (e.data.length ≤ start →
        (readPdfRange net s now url start n).1 = Except.ok ⟨[], e.data.length⟩) := by
  intro net s now url start n e hr hl
  have hlen : e.totalBytes = e.data.length := ((reachable_WF hr).2.1 url e hl).2.2
  rw [read_hit net s now url start n e hl]
  constructor
  · show Except.ok (RangeResult.mk (sliceBytes e.data start n) e.totalBytes) =
      Except.ok (RangeResult.mk (specSlice e.data start (min (start + n) e.data.length))
        e.data.length)
    rw [sliceBytes_eq_specSlice, hlen]
  · intro hge
    show Except.ok (RangeResult.mk (sliceBytes e.data start n) e.totalBytes) =
      Except.ok (RangeResult.mk [] e.data.length)
    rw [sliceBytes_empty e.data start n hge, hlen]

/-- Witness for C1: a cache populated by a 200 response holds the sample
body; a later read of `[2, 5)` returns the slice `[3, 4, 5]` with
`totalBytes = 10`. -/
theorem readPdfRange_cached_slice_witness :
    lookupE ((readPdfRange netFull createPdfCache 5 "u" 0 20).2.1).entries "u" =
      some ⟨sampleBody, 10, 5, 5⟩ ∧
    (readPdfRange netPart ((readPdfRange netFull createPdfCache 5 "u" 0 20).2.1)
        6 "u" 2 3).1 = Except.ok ⟨[3, 4, 5], 10⟩ := by
  have hr : Reachable ((readPdfRange netFull createPdfCache 5 "u" 0 20).2.1) :=
    Reachable.read netFull 5 "u" 0 20 Reachable.init
  have hl : lookupE ((readPdfRange netFull createPdfCache 5 "u" 0 20).2.1).entries "u" =
      some ⟨sampleBody, 10, 5, 5⟩ := by decide
  have h := readPdfRange_cached_slice netPart _ 6 "u" 2 3 ⟨sampleBody, 10, 5, 5⟩ hr hl
  refine ⟨hl, ?_⟩
  rw [h.1]
  rfl

/-- Claim C2: a file URL validates only if its path exists and is allowed
(verbatim file or boundary-safe directory containment), and the allowed
directory `/tmp/safe` does not admit `/tmp/safevil/file.pdf`. -/
theorem validateUrl_sound_boundary :
    (∀ (cfg : AllowListState) (fs : List String) (url : String),
      strStarts "file://" url = true →
      (validateUrl cfg fs url).valid = true →
      fileUrlToPath url ∈ fs ∧
      (fileUrlToPath url ∈ cfg.allowedLocalFiles ∨
        ∃ d ∈ cfg.allowedLocalDirs,
          fileUrlToPath url = d ∨ strStarts (d ++ "/") (fileUrlToPath url) = true)) ∧
    (∀ fs : List String,
      (validateUrl ⟨[], ["/tmp/safe"]⟩ fs "file:///tmp/safevil/file.pdf").valid = false) := by
  constructor
  · intro cfg fs url hf hv
    by_cases ha : isPathAllowed cfg (fileUrlToPath url) = true
    · by_cases he : fs.contains (fileUrlToPath url) = true
      · constructor
        · simpa using he
        · unfold isPathAllowed at ha
          rw [Bool.or_eq_true] at ha
          rcases ha with hfl | hdir
          · left; simpa using hfl
          · right
            rcases List.any_eq_true.mp hdir with ⟨d, hd, hmd⟩
            refine ⟨d, hd, ?_⟩
            unfold isPathInDirectory at hmd
            rw [Bool.or_eq_true] at hmd
            rcases hmd with h1 | h2
            · left; exact eq_of_beq h1
            · right; exact h2
      · rw [validateUrl_notFound cfg fs url hf ha (Bool.eq_false_iff.mpr he)] at hv
        exact Bool.noConfusion hv
    · rw [validateUrl_notAllowed cfg fs url hf (Bool.eq_false_iff.mpr ha)] at hv
      exact Bool.noConfusion hv
  · intro fs
    rfl

/-- Witness for C2: with allowed directory `/tmp/safe` and an existing file
`/tmp/safe/doc.pdf`, validation succeeds; soundness then yields existence
and containment, and `/tmp/safevil/file.pdf` is rejected. -/
theorem validateUrl_sound_boundary_witness :
    strStarts "file://" "file:///tmp/safe/doc.pdf" = true ∧
    (validateUrl ⟨[], ["/tmp/safe"]⟩ ["/tmp/safe/doc.pdf"]
      "file:///tmp/safe/doc.pdf").valid = true ∧
    fileUrlToPath "file:///tmp/safe/doc.pdf" ∈ ["/tmp/safe/doc.pdf"] ∧
    (validateUrl ⟨[], ["/tmp/safe"]⟩ [] "file:///tmp/safevil/file.pdf").valid = false := by
  have hf : strStarts "file://" "file:///tmp/safe/doc.pdf" = true := by decide
  have hv : (validateUrl ⟨[], ["/tmp/safe"]⟩ ["/tmp/safe/doc.pdf"]
      "file:///tmp/safe/doc.pdf").valid = true := by decide
  have h := validateUrl_sound_boundary.1 ⟨[], ["/tmp/safe"]⟩ ["/tmp/safe/doc.pdf"]
    "file:///tmp/safe/doc.pdf" hf hv
  exact ⟨hf, hv, h.1, validateUrl_sound_boundary.2 []⟩

/-- Claim C6: `validateUrl` is total — every input yields a structured
result, failures carry an error message rather than an exception — and the
two failure reasons are distinguishable: containment failures contain
"not in allowed list", existence failures contain "File not found". -/
theorem validateUrl_total_error_reasons :
    ∀ (cfg : AllowListState) (fs : List String) (url : String),
      ((validateUrl cfg fs url).valid = true → (validateUrl cfg fs url).error = none) ∧
      ((validateUrl cfg fs url).valid = false →
        ∃ msg, (validateUrl cfg fs url).error = some msg) ∧
      (strStarts "file://" url = true →
        isPathAllowed cfg (fileUrlToPath url) = false →
        (validateUrl cfg fs url).error =
          some ("Local file not in allowed list: " ++ fileUrlToPath url) ∧
        strOccurs "not in allowed list"
          ("Local file not in allowed list: " ++ fileUrlToPath url)) ∧
      (strStarts "file://" url = true →
        isPathAllowed cfg (fileUrlToPath url) = true →
        fs.contains (fileUrlToPath url) = false →
        (validateUrl cfg fs url).error = some ("File not found: " ++ fileUrlToPath url) ∧
        strOccurs "File not found" ("File not found: " ++ fileUrlToPath url)) := by
  intro cfg fs url
  refine ⟨?_, ?_, ?_, ?_⟩
  · by_cases hf : strStarts "file://" url = true
    · by_cases ha : isPathAllowed cfg (fileUrlToPath url) = true
      · by_cases he : fs.contains (fileUrlToPath url) = true
        · rw [validateUrl_ok cfg fs url hf ha he]
          intro _; rfl
        · rw [validateUrl_notFound cfg fs url hf ha (Bool.eq_false_iff.mpr he)]
          intro hv; exact Bool.noConfusion hv
      · rw [validateUrl_notAllowed cfg fs url hf (Bool.eq_false_iff.mpr ha)]
        intro hv; exact Bool.noConfusion hv
    · rw [validateUrl_nonFile cfg fs url (Bool.eq_false_iff.mpr hf)]
      intro _; rfl
  · by_cases hf : strStarts "file://" url = true
    · by_cases ha : isPathAllowed cfg (fileUrlToPath url) = true
      · by_cases he : fs.contains (fileUrlToPath url) = true
        · rw [validateUrl_ok cfg fs url hf ha he]
          intro hv; exact Bool.noConfusion hv
        · rw [validateUrl_notFound cfg fs url hf ha (Bool.eq_false_iff.mpr he)]
          intro _; exact ⟨_, rfl⟩
      · rw [validateUrl_notAllowed cfg fs url hf (Bool.eq_false_iff.mpr ha)]
        intro _; exact ⟨_, rfl⟩
    · rw [validateUrl_nonFile cfg fs url (Bool.eq_false_iff.mpr hf)]
      intro hv; exact Bool.noConfusion hv
  · intro hf ha
    rw [validateUrl_notAllowed cfg fs url hf ha]
    exact ⟨rfl, strOccurs_allowed _⟩
  · intro hf ha he
    rw [validateUrl_notFound cfg fs url hf ha he]
    exact ⟨rfl, strOccurs_notFound _⟩

/-- Witness for C6: a path outside the allowed directories yields an error
containing "not in allowed list"; an allowed but missing path yields an
error containing "File not found". -/
theorem validateUrl_total_error_reasons_witness :
    (validateUrl ⟨[], ["/some/allowed/dir"]⟩ [] "file:///other/dir/test.pdf").error =
      some ("Local file not in allowed list: " ++ fileUrlToPath "file:///other/dir/test.pdf") ∧
    strOccurs "not in allowed list"
      ("Local file not in allowed list: " ++ fileUrlToPath "file:///other/dir/test.pdf") ∧
    (validateUrl ⟨[], ["/tmp/safe"]⟩ [] "file:///tmp/safe/missing.pdf").error =
      some ("File not found: " ++ fileUrlToPath "file:///tmp/safe/missing.pdf") ∧
    strOccurs "File not found" ("File not found: " ++ fileUrlToPath "file:///tmp/safe/missing.pdf") := by
  have h1 := (validateUrl_total_error_reasons ⟨[], ["/some/allowed/dir"]⟩ []
    "file:///other/dir/test.pdf").2.2.1 (by decide) (by decide)
  have h2 := (validateUrl_total_error_reasons ⟨[], ["/tmp/safe"]⟩ []
    "file:///tmp/safe/missing.pdf").2.2.2 (by decide) (by decide) (by decide)
  exact ⟨h1.1, h1.2, h2.1, h2.2⟩

/-- Claim C9: `clearCache` cancels every live timer and empties the entry
map, so `getCacheSize` is 0 immediately afterwards, and it is idempotent. -/
theorem clearCache_empties_idempotent :
    ∀ s : CacheState,
      getCacheSize (clearCache s) = 0 ∧
      (clearCache s).timers = [] ∧
      clearCache (clearCache s) = clearCache s ∧
      getCacheSize (clearCache (clearCache s)) = 0 :=
  fun _ => ⟨rfl, rfl, rfl, rfl⟩

/-- Claim C10: a freshly created cache instance is empty, and instances are
isolated: an operation on one instance never touches another, so after a
caching read on the first of two fresh instances the first holds one entry
while the second is still empty. -/
theorem createPdfCache_empty_isolated :
    getCacheSize createPdfCache = 0 ∧
    (∀ net now url start len (p : CacheState × CacheState),
      (readOnFirst net now url start len p).2 = p.2) ∧
    (∀ net now url start len,
      (net url (some (start, len))).status = 200 →
      okSize (net url (some (start, len))) →
      getCacheSize (readOnFirst net now url start len (createPdfCache, createPdfCache)).1 = 1 ∧
      (readOnFirst net now url start len (createPdfCache, createPdfCache)).2 = createPdfCache ∧
      getCacheSize (readOnFirst net now url start len (createPdfCache, createPdfCache)).2 = 0) := by
  refine ⟨rfl, fun _ _ _ _ _ _ => rfl, ?_⟩
  intro net now url start len h200 hok
  have hl : lookupE (createPdfCache).entries url = none := rfl
  refine ⟨?_, rfl, rfl⟩
  show getCacheSize (readPdfRange net createPdfCache now url start len).2.1 = 1
  rw [read_200 net createPdfCache now url start len hl h200,
    cacheFullBody_ok _ _ _ _ _ _ hok]
  rfl

/-- Witness for C10: after a 200 read on the first of two fresh instances,
the first holds one entry and the second is unchanged and empty. -/
theorem createPdfCache_empty_isolated_witness :
    (netFull "u" (some (0, 4))).status = 200 ∧
    getCacheSize (readOnFirst netFull 0 "u" 0 4 (createPdfCache, createPdfCache)).1 = 1 ∧
    (readOnFirst netFull 0 "u" 0 4 (createPdfCache, createPdfCache)).2 = createPdfCache ∧
    getCacheSize (readOnFirst netFull 0 "u" 0 4 (createPdfCache, createPdfCache)).2 = 0 := by
  have hok : okSize (netFull "u" (some (0, 4))) :=
    ⟨fun cl hh => Option.noConfusion hh, by decide⟩
  have h := createPdfCache_empty_isolated.2.2 netFull 0 "u" 0 4 rfl hok
  exact ⟨rfl, h.1, h.2.1, h.2.2⟩

/-- Claim C3: a cold read answered 200 performs exactly one fetch and caches
the full body, and arbitrarily many subsequent reads of the same URL perform
no further fetch; under an upstream that answers 206, every read of the URL
performs one fetch of its own and nothing is ever cached. -/
theorem readPdfRange_cache_200_206 :
    (∀ net (s : CacheState) now url start len,
      lookupE s.entries url = none →
      (net url (some (start, len))).status = 200 →
      okSize (net url (some (start, len))) →
      (readPdfRange net s now url start len).2.2 = 1 ∧
      lookupE (readPdfRange net s now url start len).2.1.entries url =
        some ⟨(net url (some (start, len))).body,
          (net url (some (start, len))).body.length, now, now⟩ ∧
      (∀ reqs, (readSeq net url reqs (readPdfRange net s now url start len).2.1).2 = 0)) ∧
    (∀ net url, (∀ start len, (net url (some (start, len))).status = 206) →
      ∀ s : CacheState, lookupE s.entries url = none →
      ∀ reqs, (readSeq net url reqs s).1 = s ∧ (readSeq net url reqs s).2 = reqs.length) := by
  constructor
  · intro net s now url start len hl h200 hok
    rw [read_200 net s now url start len hl h200, cacheFullBody_ok _ _ _ _ _ _ hok]
    refine ⟨rfl, storeState_lookup s now url _, ?_⟩
    intro reqs
    exact readSeq_of_hit net url reqs _ _ (storeState_lookup s now url _)
  · intro net url h206 s hl reqs
    exact readSeq_206 net url h206 reqs s hl

/-- Witness for C3: the 200 upstream is fetched once and the follow-up read
sequence performs zero fetches; under the 206 upstream two reads perform two
fetches and leave the cache unchanged. -/
theorem readPdfRange_cache_200_206_witness :
    (netFull "u" (some (0, 4))).status = 200 ∧
    (readPdfRange netFull createPdfCache 0 "u" 0 4).2.2 = 1 ∧
    (readSeq netFull "u" [(1, 2, 3)]
      (readPdfRange netFull createPdfCache 0 "u" 0 4).2.1).2 = 0 ∧
    (readSeq netPart "u" [(0, 0, 2), (1, 0, 2)] createPdfCache).1 = createPdfCache ∧
    (readSeq netPart "u" [(0, 0, 2), (1, 0, 2)] createPdfCache).2 = 2 := by
  have hok : okSize (netFull "u" (some (0, 4))) :=
    ⟨fun cl hh => Option.noConfusion hh, by decide⟩
  have h1 := readPdfRange_cache_200_206.1 netFull createPdfCache 0 "u" 0 4 rfl rfl hok
  have h2 := readPdfRange_cache_200_206.2 netPart "u" (fun _ _ => rfl) createPdfCache rfl
    [(0, 0, 2), (1, 0, 2)]
  exact ⟨rfl, h1.1, h1.2.2 [(1, 2, 3)], h2.1, h2.2⟩

/-- Claim C4: whenever a full body is about to be cached, an advertised
`Content-Length` over `CACHE_MAX_PDF_SIZE_BYTES` or an actual body over that
bound makes the read fail with `PdfTooLargeError`, no entry is inserted and
the cache state is unchanged. -/
theorem readPdfRange_size_limit :
    (∀ (s : CacheState) now url start len r, oversizeResp r →
      cacheFullBody s now url start len r = (Except.error PdfError.pdfTooLarge, s)) ∧
    (∀ net (s : CacheState) now url start len,
      lookupE s.entries url = none →
      (net url (some (start, len))).status = 200 →
      oversizeResp (net url (some (start, len))) →
      readPdfRange net s now url start len = (Except.error PdfError.pdfTooLarge, s, 1) ∧
      getCacheSize (readPdfRange net s now url start len).2.1 = getCacheSize s) ∧
    (∀ net (s : CacheState) now url start len,
      lookupE s.entries url = none →
      (net url (some (start, len))).status = 501 →
      (net url none).status = 200 →
      oversizeResp (net url none) →
      readPdfRange net s now url start len = (Except.error PdfError.pdfTooLarge, s, 2)) := by
  refine ⟨fun s now url start len r h => cacheFullBody_reject s now url start len r h, ?_, ?_⟩
  · intro net s now url start len hl h200 hov
    rw [read_200 net s now url start len hl h200,
      cacheFullBody_reject s now url start len _ hov]
    exact ⟨rfl, rfl⟩
  · intro net s now url start len hl h501 hg hov
    rw [read_501 net s now url start len hl h501 hg,
      cacheFullBody_reject s now url start len _ hov]

/-- Witness for C4: an upstream advertising `Content-Length` one over the
limit makes the cold read fail with `PdfTooLargeError` and leaves the empty
cache at size 0. -/
theorem readPdfRange_size_limit_witness :
    oversizeResp (netHuge "u" (some (0, 4))) ∧
    readPdfRange netHuge createPdfCache 0 "u" 0 4 =
      (Except.error PdfError.pdfTooLarge, createPdfCache, 1) ∧
    getCacheSize (readPdfRange netHuge createPdfCache 0 "u" 0 4).2.1 = 0 := by
  have hov : oversizeResp (netHuge "u" (some (0, 4))) :=
    Or.inl ⟨CACHE_MAX_PDF_SIZE_BYTES + 1, rfl, Nat.lt_succ_self _⟩
  have h := readPdfRange_size_limit.2.1 netHuge createPdfCache 0 "u" 0 4 rfl rfl hov
  exact ⟨hov, h.1, h.2⟩

/-- Claim C5: a cold read answered 501 retries once with a plain GET and
treats its 200 result as the full-body case — two fetches, a cached entry
equal to the GET body, and a return value sliced from it; this fallback is
the only automatic retry: every call performs at most two fetches, and two
only on a cold 501. -/
theorem readPdfRange_501_get_fallback :
    (∀ net (s : CacheState) now url start len,
      lookupE s.entries url = none →
      (net url (some (start, len))).status = 501 →
      (net url none).status = 200 →
      okSize (net url none) →
      readPdfRange net s now url start len =
        (Except.ok ⟨sliceBytes (net url none).body start len, (net url none).body.length⟩,
         storeState s now url (net url none).body, 2) ∧
      lookupE (readPdfRange net s now url start len).2.1.entries url =
        some ⟨(net url none).body, (net url none).body.length, now, now⟩) ∧
    (∀ net (s : CacheState) now url start len,
      (readPdfRange net s now url start len).2.2 ≤ 2 ∧
      ((readPdfRange net s now url start len).2.2 = 2 →
        lookupE s.entries url = none ∧ (net url (some (start, len))).status = 501)) := by
  constructor
  · intro net s now url start len hl h501 hg hok
    rw [read_501 net s now url start len hl h501 hg, cacheFullBody_ok _ _ _ _ _ _ hok]
    exact ⟨rfl, storeState_lookup s now url _⟩
  · intro net s now url start len
    exact read_fetch_bound net s now url start len

/-- Witness for C5: under the 501-then-200 upstream, a cold read performs
two fetches, caches the GET body and returns its requested slice. -/
theorem readPdfRange_501_get_fallback_witness :
    (netFallback "u" (some (1, 3))).status = 501 ∧
    readPdfRange netFallback createPdfCache 7 "u" 1 3 =
      (Except.ok ⟨[2, 3, 4], 10⟩, storeState createPdfCache 7 "u" sampleBody, 2) ∧
    lookupE (readPdfRange netFallback createPdfCache 7 "u" 1 3).2.1.entries "u" =
      some ⟨sampleBody, 10, 7, 7⟩ := by
  have hok : okSize (netFallback "u" none) :=
    ⟨fun cl hh => Option.noConfusion hh, by decide⟩
  have h := readPdfRange_501_get_fallback.1 netFallback createPdfCache 7 "u" 1 3 rfl rfl rfl hok
  refine ⟨rfl, ?_, h.2⟩
  rw [h.1]
  rfl

/-- Claim C7: in every reachable cache state an entry exists exactly while
both of its timers are live; firing either timer removes the entry, cancels
the other timer, and a subsequent read of that URL is a cold fetch. -/
theorem eviction_timer_invariant :
    ∀ s : CacheState, Reachable s →
      (∀ url, (∃ e, lookupE s.entries url = some e) ↔
        ((∃ t ∈ s.timers, t.url = url ∧ t.kind = TimerKind.inactivity) ∧
         (∃ t ∈ s.timers, t.url = url ∧ t.kind = TimerKind.lifetime))) ∧
      (∀ t ∈ s.timers,
        lookupE (evictEntry s t.url).entries t.url = none ∧
        (∀ t2 ∈ (evictEntry s t.url).timers, t2.url ≠ t.url) ∧
        (∀ net now start len,
          1 ≤ (readPdfRange net (evictEntry s t.url) now t.url start len).2.2)) := by
  intro s hr
  obtain ⟨W1, W2, W3⟩ := reachable_WF hr
  constructor
  · intro url
    constructor
    · rintro ⟨e, he⟩
      obtain ⟨hi, hlf, _⟩ := W2 url e he
      exact ⟨hi, hlf⟩
    · rintro ⟨⟨t, ht, htu, _⟩, _⟩
      have hs := W1 t ht
      rw [htu] at hs
      cases hx : lookupE s.entries url with
      | some e => exact ⟨e, rfl⟩
      | none => rw [hx] at hs; simp at hs
  · intro t ht
    have hnone : lookupE (evictEntry s t.url).entries t.url = none := by
      simp only [evictEntry]
      rw [lookupE_eraseE, if_pos rfl]
    refine ⟨hnone, ?_, ?_⟩
    · intro t2 ht2
      simp only [evictEntry] at ht2
      exact ((mem_removeTimers _ _).mp ht2).2
    · intro net now start len
      exact read_fetch_cold net _ now t.url start len hnone

/-- Witness for C7: the state cached by a 200 read holds the inactivity
timer of its URL; evicting through it leaves no entry for the URL. -/
theorem eviction_timer_invariant_witness :
    (⟨"u", TimerKind.inactivity, 10000⟩ : Timer) ∈
      ((readPdfRange netFull createPdfCache 0 "u" 0 4).2.1).timers ∧
    lookupE (evictEntry ((readPdfRange netFull createPdfCache 0 "u" 0 4).2.1) "u").entries
      "u" = none := by
  have hr : Reachable ((readPdfRange netFull createPdfCache 0 "u" 0 4).2.1) :=
    Reachable.read netFull 0 "u" 0 4 Reachable.init
  have ht : (⟨"u", TimerKind.inactivity, 10000⟩ : Timer) ∈
      ((readPdfRange netFull createPdfCache 0 "u" 0 4).2.1).timers := by decide
  have h := (eviction_timer_invariant _ hr).2 ⟨"u", TimerKind.inactivity, 10000⟩ ht
  exact ⟨ht, h.1⟩

/-- Claim C8: a cache hit updates only `lastAccessedAt` and the inactivity
timer (rescheduled to `now + CACHE_INACTIVITY_TIMEOUT_MS`); the data,
`totalBytes`, `createdAt`, other entries, other URLs' timers and all
lifetime timers are unchanged, and in reachable states every lifetime timer
fires exactly `CACHE_MAX_LIFETIME_MS` after its entry's creation. -/
theorem readPdfRange_hit_frame :
    ∀ net (s : CacheState) now url start len e,
      lookupE s.entries url = some e →
      lookupE (readPdfRange net s now url start len).2.1.entries url =
        some ⟨e.data, e.totalBytes, e.createdAt, now⟩ ∧
      (∀ v, v ≠ url →
        lookupE (readPdfRange net s now url start len).2.1.entries v =
          lookupE s.entries v) ∧
      lifetimeTimers (readPdfRange net s now url start len).2.1.timers =
        lifetimeTimers s.timers ∧
      (∀ t ∈ (readPdfRange net s now url start len).2.1.timers,
        t.url = url → t.kind = TimerKind.inactivity →
        t.deadline = now + CACHE_INACTIVITY_TIMEOUT_MS) ∧
      (∀ t : Timer, t.url ≠ url →
        (t ∈ (readPdfRange net s now url start len).2.1.timers ↔ t ∈ s.timers)) ∧
      (Reachable s → ∀ t ∈ s.timers, t.kind = TimerKind.lifetime →
        ∀ e2, lookupE s.entries t.url = some e2 →
          t.deadline = e2.createdAt + CACHE_MAX_LIFETIME_MS) := by
  intro net s now url start len e hl
  rw [read_hit net s now url start len e hl]
  refine ⟨hitState_lookup s now url e, ?_, ?_, ?_, ?_, ?_⟩
  · intro v hv
    simp only [hitState]
    rw [lookupE_insertE, if_neg hv]
  · simp only [hitState]
    exact lifetimeTimers_resched s.timers url now
  · intro t ht htu htk
    simp only [hitState, rescheduleInactivity] at ht
    rcases List.mem_map.mp ht with ⟨t0, ht0, rfl⟩
    rw [reschedOne_url] at htu
    rw [reschedOne_kind] at htk
    rw [reschedOne_of_hit url now t0 htu htk]
  · intro t htu
    simp only [hitState, rescheduleInactivity]
    constructor
    · intro ht
      rcases List.mem_map.mp ht with ⟨t0, ht0, rfl⟩
      have h0 : t0.url ≠ url := by
        rw [← reschedOne_url url now t0]
        exact htu
      rw [reschedOne_of_not url now t0 (fun hc => h0 hc.1)]
      exact ht0
    · intro ht
      have h0 : ¬(t.url = url ∧ t.kind = TimerKind.inactivity) := fun hc => htu hc.1
      rw [← reschedOne_of_not url now t h0]
      exact List.mem_map_of_mem _ ht
  · intro hr t ht htk e2 h2
    exact (reachable_WF hr).2.2 t ht htk e2 h2

/-- Witness for C8: a hit at time 3 on the entry cached at time 0 updates
`lastAccessedAt` to 3, keeps data, `totalBytes` and `createdAt`, and leaves
the lifetime timers untouched. -/
theorem readPdfRange_hit_frame_witness :
    lookupE ((readPdfRange netPart ((readPdfRange netFull createPdfCache 0 "u" 0 4).2.1)
        3 "u" 0 2).2.1).entries "u" = some ⟨sampleBody, 10, 0, 3⟩ ∧
    lifetimeTimers ((readPdfRange netPart ((readPdfRange netFull createPdfCache 0 "u" 0 4).2.1)
        3 "u" 0 2).2.1).timers =
      lifetimeTimers ((readPdfRange netFull createPdfCache 0 "u" 0 4).2.1).timers := by
  have hl : lookupE ((readPdfRange netFull createPdfCache 0 "u" 0 4).2.1).entries "u" =
      some ⟨sampleBody, 10, 0, 0⟩ := by decide
  have h := readPdfRange_hit_frame netPart _ 3 "u" 0 2 ⟨sampleBody, 10, 0, 0⟩ hl
  exact ⟨h.1, h.2.2.1⟩

end PdfServer
